import Mathlib

/-!
Shallow embedding of the AutoSub Sync application (App.tsx,
services/fileUtils.ts, services/geminiService.ts, types.ts) and proofs of
the specification's claims about it.

Modelling conventions:
* JavaScript strings are Lean `String`s (lists of `Char`); the JS regex
  operations used by the source are translated into explicit list
  functions below, one per regex.
* JavaScript numbers are idealized as exact arithmetic over `Nat`
  (the source only ever handles non-negative byte counts); `toFixed(2)`
  followed by `parseFloat` is modelled as exact decimal rounding to
  hundredths followed by trailing-zero removal.
* Asynchronous operations (FileReader, the Gemini call) are modelled by
  passing their outcome as an explicit argument; the outbound network
  traffic of the Gemini client is returned as an explicit list of
  requests so that "no call was issued" is a provable statement.
-/

namespace AutoSub

/-! ### JS character/string primitives -/

/-- JS whitespace class (the ASCII part of `\s` and `String.prototype.trim`):
space, tab, LF, CR, vertical tab, form feed. -/
def isJsSpace (c : Char) : Bool :=
  c = ' ' || c = '\t' || c = '\n' || c = '\r' ||
  c = Char.ofNat 11 || c = Char.ofNat 12

/-- JS `String.prototype.trim` on a character list. -/
def jsTrimList (cs : List Char) : List Char :=
  ((cs.dropWhile isJsSpace).reverse.dropWhile isJsSpace).reverse

/-- JS `String.prototype.trim`. -/
def jsTrim (s : String) : String :=
  String.mk (jsTrimList s.toList)

/-- Does `hay` contain `needle` as a contiguous substring
(JS `String.prototype.includes`)? -/
def containsSub (needle : List Char) : List Char → Bool
  | [] => needle.isEmpty
  | c :: t => needle.isPrefixOf (c :: t) || containsSub needle t

/-- JS `hay.includes(needle)`. -/
def strContains (hay needle : String) : Bool :=
  containsSub needle.toList hay.toList

/-- JS `s.startsWith(pre)`. -/
def strStartsWith (s pre : String) : Bool :=
  pre.toList.isPrefixOf s.toList

/-! ### fileUtils.ts -/

/-- The unit table of `formatFileSize`: `const sizes = ['Bytes','KB','MB','GB']`. -/
def sizesTable : List String := ["Bytes", "KB", "MB", "GB"]

/-- JS array indexing `sizes[i]`: out-of-range access yields `undefined`,
which string concatenation renders as the text "undefined". -/
def unitAt (i : Nat) : String := (sizesTable.get? i).getD "undefined"

/-- `(bytes / d).toFixed(2)` idealized over exact rationals: the number of
hundredths, rounded to nearest with ties rounded up. -/
def jsToFixed2 (bytes d : Nat) : Nat := (200 * bytes + d) / (2 * d)

/-- Render `n` hundredths the way `parseFloat(x.toFixed(2))` displays the
value: trailing fractional zeros are dropped. -/
def renderHundredths (n : Nat) : String :=
  if n % 100 = 0 then toString (n / 100)
  else if n % 10 = 0 then toString (n / 100) ++ "." ++ toString ((n % 100) / 10)
  else if n % 100 < 10 then toString (n / 100) ++ ".0" ++ toString (n % 100)
  else toString (n / 100) ++ "." ++ toString (n % 100)

/-- `formatFileSize` from fileUtils.ts.  `Math.floor(Math.log(bytes)/Math.log(1024))`
is the base-1024 integer logarithm, i.e. `Nat.log 1024 bytes`. -/
def formatFileSize (bytes : Nat) : String :=
  if bytes = 0 then "0 Bytes"
  else
    renderHundredths (jsToFixed2 bytes (1024 ^ Nat.log 1024 bytes)) ++ " " ++
      unitAt (Nat.log 1024 bytes)

/-- The regex replace `filename.replace(/\.[^/.]+$/, "")` of `downloadSrt`:
if the characters after the last dot are non-empty and contain no slash,
the final dot and everything after it are removed; otherwise the name is
kept whole. -/
def stripExtList (cs : List Char) : List Char :=
  let rev := cs.reverse
  let extRev := rev.takeWhile (fun c => c ≠ '.')
  if extRev.length < rev.length ∧ extRev ≠ [] ∧ '/' ∉ extRev then
    (rev.drop (extRev.length + 1)).reverse
  else cs

/-- The filename computed by `downloadSrt`:
`filename.replace(/\.[^/.]+$/, "") + ".srt"`. -/
def downloadSrtFilename (filename : String) : String :=
  String.mk (stripExtList filename.toList) ++ ".srt"

/-! ### geminiService.ts -/

/-- The backtick character. -/
def btick : Char := Char.ofNat 96

/-- ASCII upper-casing of a pattern character (used to express the
case-insensitivity of the `/i` regex flag). -/
def upChar (c : Char) : Char :=
  if 97 ≤ c.toNat ∧ c.toNat ≤ 122 then Char.ofNat (c.toNat - 32) else c

/-- A literal code fence marker. -/
def fence : List Char := [btick, btick, btick]

/-- The fence marker tagged `srt`. -/
def fenceSrt : List Char := fence ++ ['s', 'r', 't']

/-- Case-insensitive anchored match of a (lower-case/symbol) pattern at the
head of the input; on success returns the rest of the input. -/
def matchCI : List Char → List Char → Option (List Char)
  | [], cs => some cs
  | _ :: _, [] => none
  | p :: ps, c :: cs => if c = p ∨ c = upChar p then matchCI ps cs else none

/-- `text.replace(/^PAT\s*/i, '')` for a literal pattern `PAT`. -/
def replaceLead (pat cs : List Char) : List Char :=
  match matchCI pat cs with
  | some rest => rest.dropWhile isJsSpace
  | none => cs

/-- `text.replace(/```$/, '')`: a fence is removed only when it occupies
the very last three characters of the string. -/
def stripTrailFence (cs : List Char) : List Char :=
  if fence.isPrefixOf cs.reverse then (cs.reverse.drop 3).reverse else cs

/-- The response post-processing of `generateSrtFromVideo`:
`text.replace(/^```srt\s*/i, '').replace(/^```\s*/i, '').replace(/```$/, '').trim()`. -/
def cleanList (cs : List Char) : List Char :=
  jsTrimList (stripTrailFence (replaceLead fence (replaceLead fenceSrt cs)))

/-- String-level wrapper of `cleanList`. -/
def cleanResponse (s : String) : String := String.mk (cleanList s.toList)

/-- The fixed instruction template of `generateSrtFromVideo` with the
transcript interpolated (abbreviated header/footer kept verbatim where the
claims depend on them; the interpolation point is faithful). -/
def buildPrompt (transcript : String) : String :=
  "You are an expert video subtitle synchronizer." ++
  " Output ONLY the SRT content." ++
  " TRANSCRIPT: " ++ transcript

/-- One outbound request to the Gemini service. -/
structure GeminiRequest where
  data : String
  mimeType : String
  prompt : String
deriving DecidableEq

/-- Outcome of the external `generateContent` call: either a response whose
`text` field may be absent/empty, or a transport/remote failure message. -/
inductive ServiceResult where
  | ok (text : Option String)
  | fail (msg : String)

/-- Message of the missing-credential error thrown before the client is
constructed. -/
def configErrorMsg : String :=
  "API Key is missing. Please ensure process.env.API_KEY is available."

/-- Message thrown when the service responds without text; it is rethrown
unchanged by the catch block (its message is non-empty). -/
def emptyResponseMsg : String := "Gemini returned an empty response."

/-- Fallback message of the catch block: `error.message || "Failed to generate subtitles."`. -/
def genericFailMsg : String := "Failed to generate subtitles."

/-- `generateSrtFromVideo` from geminiService.ts.  `apiKey` is
`process.env.API_KEY` (`none` = undefined; `some ""` is falsy too), `svc`
the outcome of the single `generateContent` call.  The second component
lists the outbound requests actually issued. -/
def generateSrtFromVideo (apiKey : Option String) (svc : ServiceResult)
    (videoBase64 mimeType transcript : String) :
    Except String String × List GeminiRequest :=
  if apiKey = none ∨ apiKey = some "" then
    (Except.error configErrorMsg, [])
  else
    let req : GeminiRequest :=
      ⟨videoBase64, mimeType, buildPrompt transcript⟩
    match svc with
    | ServiceResult.ok txt =>
        match txt with
        | none => (Except.error emptyResponseMsg, [req])
        | some t =>
            if t = "" then (Except.error emptyResponseMsg, [req])
            else (Except.ok (cleanResponse t), [req])
    | ServiceResult.fail msg =>
        (Except.error (if msg = "" then genericFailMsg else msg), [req])

/-! ### types.ts and App.tsx -/

/-- `AppStep` from types.ts. -/
inductive AppStep where
  | UPLOAD
  | TRANSCRIPT
  | PROCESSING
  | RESULT
  | ERROR
deriving DecidableEq

/-- The declared fields of a selected file (`VideoMetadata` in types.ts;
the fields of the browser `File` object the app reads). -/
structure FileDesc where
  name : String
  size : Nat
  type : String
deriving DecidableEq

/-- `ProcessingState` from types.ts. -/
structure ProcessingState where
  step : AppStep
  videoFile : Option FileDesc
  videoBase64 : Option String
  transcript : String
  generatedSrt : String
  error : Option String
deriving DecidableEq

/-- `MAX_FILE_SIZE_MB` from App.tsx. -/
def MAX_FILE_SIZE_MB : Nat := 200

/-- `MAX_FILE_SIZE_BYTES` from App.tsx. -/
def MAX_FILE_SIZE_BYTES : Nat := MAX_FILE_SIZE_MB * 1024 * 1024

/-- The initial `useState` value of App.tsx. -/
def initialState : ProcessingState :=
  { step := AppStep.UPLOAD
    videoFile := none
    videoBase64 := none
    transcript := ""
    generatedSrt := ""
    error := none }

/-- `handleFileSelect` from App.tsx, as a state transformer.  `enc` is the
outcome of the awaited `fileToBase64` call (`none` = the reader failed).
The boolean records whether encoding was started. -/
def handleFileSelect (s : ProcessingState) (f : FileDesc) (enc : Option String) :
    ProcessingState × Bool :=
  if MAX_FILE_SIZE_BYTES < f.size then
    ({ s with error := some ("File too large. Please upload a video smaller than " ++
        toString MAX_FILE_SIZE_MB ++ "MB.") }, false)
  else if ¬ (strStartsWith f.type "video/") then
    ({ s with error := some "Please upload a valid video file." }, false)
  else
    let s1 := { s with videoFile := some f, error := none }
    match enc with
    | some b64 =>
        ({ s1 with videoBase64 := some b64, step := AppStep.TRANSCRIPT }, true)
    | none => ({ s1 with error := some "Failed to process video file." }, true)

/-- `handleDrop` from App.tsx (the source duplicates the selection logic
for the drag-and-drop event; the duplication is kept). -/
def handleDrop (s : ProcessingState) (f : FileDesc) (enc : Option String) :
    ProcessingState × Bool :=
  if MAX_FILE_SIZE_BYTES < f.size then
    ({ s with error := some ("File too large. Please upload a video smaller than " ++
        toString MAX_FILE_SIZE_MB ++ "MB.") }, false)
  else if ¬ (strStartsWith f.type "video/") then
    ({ s with error := some "Please upload a valid video file." }, false)
  else
    let s1 := { s with videoFile := some f, error := none }
    match enc with
    | some b64 =>
        ({ s1 with videoBase64 := some b64, step := AppStep.TRANSCRIPT }, true)
    | none => ({ s1 with error := some "Failed to process video file." }, true)

/-- The synchronous part of `handleGenerate` from App.tsx, up to issuing the
alignment call.  The guard `!state.videoBase64 || !state.videoFile ||
!state.transcript.trim()` treats `null` and the empty string as falsy.
The boolean records whether `generateSrtFromVideo` was invoked. -/
def handleGenerateStart (s : ProcessingState) : ProcessingState × Bool :=
  if s.videoBase64 = none ∨ s.videoBase64 = some "" ∨ s.videoFile = none ∨
      jsTrim s.transcript = "" then
    ({ s with error := some "Please provide both a video and a transcript." }, false)
  else
    ({ s with step := AppStep.PROCESSING, error := none }, true)

/-- The size hint appended by `handleGenerate` to size-suspicious failures. -/
def sizeHint : String :=
  " (The file might be too large for direct API processing. Try compressing it under 20MB.)"

/-- Default message when the thrown error carries a falsy message. -/
def defaultGenerateErrorMsg : String := "An error occurred while communicating with AI."

/-- The continuation of `handleGenerate` once the alignment call settles:
success stores the subtitle text and moves to RESULT; failure stores the
(possibly hint-augmented) message and moves to ERROR. -/
def handleGenerateResolve (s : ProcessingState) (r : Except String String) :
    ProcessingState :=
  match r with
  | Except.ok srt => { s with generatedSrt := srt, step := AppStep.RESULT }
  | Except.error msg =>
      let m0 := if msg = "" then defaultGenerateErrorMsg else msg
      let m :=
        match s.videoFile with
        | some f =>
            if 20 * 1024 * 1024 < f.size ∧ strContains m0 "400" = true then
              m0 ++ sizeHint
            else m0
        | none => m0
      { s with step := AppStep.ERROR, error := some m }

/-- `handleReset` from App.tsx: the whole record is replaced. -/
def handleReset (_s : ProcessingState) : ProcessingState := initialState

/-- The `Try Again` click handler of `renderErrorStep`. -/
def handleRetry (s : ProcessingState) : ProcessingState :=
  { s with step := AppStep.TRANSCRIPT, error := none }

/-! ### The session-level transition system

The presentation layer only dispatches the trigger of the currently
rendered step (each button exists in exactly one render branch of
App.tsx), and the two asynchronous completions can only arrive for an
operation that was actually started.  `Sys` pairs the session state with
the ghost flag `pending`: an alignment call has been issued and has not
settled. -/

structure Sys where
  st : ProcessingState
  pending : Bool
deriving DecidableEq

/-- The user/async events of the application. -/
inductive Ev where
  | selectFile (f : FileDesc) (enc : Option String)
  | dropFile (f : FileDesc) (enc : Option String)
  | editTranscript (t : String)
  | clickGenerate
  | alignSettle (r : Except String String)
  | clickReset
  | clickRetry
  | clickDownload

/-- Which events the rendered UI (and the pending call) can produce in a
given state: each trigger is wired to exactly one render branch of
App.tsx, and an alignment settlement requires an unresolved call. -/
def enabledEv (s : Sys) : Ev → Bool
  | Ev.selectFile _ _ => decide (s.st.step = AppStep.UPLOAD)
  | Ev.dropFile _ _ => decide (s.st.step = AppStep.UPLOAD)
  | Ev.editTranscript _ => decide (s.st.step = AppStep.TRANSCRIPT)
  | Ev.clickGenerate => decide (s.st.step = AppStep.TRANSCRIPT)
  | Ev.alignSettle _ => s.pending
  | Ev.clickReset =>
      decide (s.st.step = AppStep.TRANSCRIPT) || decide (s.st.step = AppStep.RESULT)
  | Ev.clickRetry => decide (s.st.step = AppStep.ERROR)
  | Ev.clickDownload => decide (s.st.step = AppStep.RESULT)

/-- One step of the system.  The boolean output records whether this step
invoked the alignment client (`generateSrtFromVideo`). -/
def stepSys (s : Sys) : Ev → Sys × Bool
  | Ev.selectFile f enc => (⟨(handleFileSelect s.st f enc).1, s.pending⟩, false)
  | Ev.dropFile f enc => (⟨(handleDrop s.st f enc).1, s.pending⟩, false)
  | Ev.editTranscript t => (⟨{ s.st with transcript := t }, s.pending⟩, false)
  | Ev.clickGenerate =>
      let p := handleGenerateStart s.st
      (⟨p.1, s.pending || p.2⟩, p.2)
  | Ev.alignSettle r => (⟨handleGenerateResolve s.st r, false⟩, false)
  | Ev.clickReset => (⟨handleReset s.st, s.pending⟩, false)
  | Ev.clickRetry => (⟨handleRetry s.st, s.pending⟩, false)
  | Ev.clickDownload => (⟨s.st, s.pending⟩, false)

/-- States reachable from app start through enabled events. -/
inductive Reachable : Sys → Prop where
  | init : Reachable ⟨initialState, false⟩
  | step (s : Sys) (e : Ev) : Reachable s → enabledEv s e = true →
      Reachable (stepSys s e).1

/-! ### Shared helper lemmas -/

lemma data_append (a b : String) : (a ++ b).data = a.data ++ b.data := rfl

lemma takeWhile_append_of_all (p : Char → Bool) (a : List Char) (c : Char)
    (b : List Char) (ha : ∀ x ∈ a, p x = true) (hc : p c = false) :
    (a ++ c :: b).takeWhile p = a := by
  induction a with
  | nil => simp [List.takeWhile_cons, hc]
  | cons x xs ih =>
      have hx : p x = true := ha x (by simp)
      simp only [List.cons_append, List.takeWhile_cons, hx, if_true]
      rw [ih (fun y hy => ha y (by simp [hy]))]

lemma stripExt_strip (stem ext : List Char) (hne : ext ≠ []) (hdot : '.' ∉ ext)
    (hsl : '/' ∉ ext) : stripExtList (stem ++ '.' :: ext) = stem := by
  have hrev : (stem ++ '.' :: ext).reverse = ext.reverse ++ '.' :: stem.reverse := by
    simp
  have htake : (ext.reverse ++ '.' :: stem.reverse).takeWhile
      (fun c => decide (c ≠ '.')) = ext.reverse := by
    refine takeWhile_append_of_all _ _ _ _ ?_ (by simp)
    intro x hx
    simp only [decide_eq_true_eq]
    intro h
    exact hdot (h ▸ List.mem_reverse.mp hx)
  simp only [stripExtList, hrev, htake]
  rw [if_pos]
  · rw [show ext.reverse ++ '.' :: stem.reverse =
        (ext.reverse ++ ['.']) ++ stem.reverse by simp,
      List.drop_left' (by simp), List.reverse_reverse]
  · refine ⟨by simp, by simpa using hne, ?_⟩
    intro h
    exact hsl (List.mem_reverse.mp h)

lemma stripExt_keep (cs : List Char) (hdot : '.' ∉ cs) : stripExtList cs = cs := by
  have htake : cs.reverse.takeWhile (fun c => decide (c ≠ '.')) = cs.reverse := by
    rw [List.takeWhile_eq_self_iff]
    intro x hx
    simp only [decide_eq_true_eq]
    intro h
    exact hdot (h ▸ List.mem_reverse.mp hx)
  simp only [stripExtList, htake]
  rw [if_neg]
  intro h
  exact absurd h.1 (lt_irrefl _)

/-! ### Claim C9 -/

/-- Claim C9: `downloadSrt` derives the output name by removing the final
dot-extension when one exists (a non-empty, dot-free, slash-free suffix
after the last dot), keeping the whole name otherwise, and appending the
fixed ".srt" extension; in particular "movie.mp4" yields "movie.srt" and
"clip" yields "clip.srt". -/
theorem downloadSrt_filename_derivation :
    (∀ stem ext : List Char, ext ≠ [] → '.' ∉ ext → '/' ∉ ext →
      downloadSrtFilename (String.mk (stem ++ '.' :: ext)) = String.mk stem ++ ".srt") ∧
    (∀ cs : List Char, '.' ∉ cs →
      downloadSrtFilename (String.mk cs) = String.mk cs ++ ".srt") ∧
    downloadSrtFilename "movie.mp4" = "movie.srt" ∧
    downloadSrtFilename "clip" = "clip.srt" := by
  refine ⟨?_, ?_, by decide, by decide⟩
  · intro stem ext hne hdot hsl
    simp only [downloadSrtFilename]
    rw [show (String.mk (stem ++ '.' :: ext)).toList = stem ++ '.' :: ext from rfl,
      stripExt_strip stem ext hne hdot hsl]
  · intro cs hdot
    simp only [downloadSrtFilename]
    rw [show (String.mk cs).toList = cs from rfl, stripExt_keep cs hdot]

/-- Witness for C9 at the concrete input "movie.mp4". -/
theorem downloadSrt_filename_derivation_witness :
    downloadSrtFilename (String.mk ("movie".toList ++ '.' :: "mp4".toList)) =
      String.mk "movie".toList ++ ".srt" :=
  downloadSrt_filename_derivation.1 "movie".toList "mp4".toList
    (by decide) (by decide) (by decide)

/-! ### Claim C10 -/

/-- Counterexample for C10: the suggested filename "." begins with a dot and
contains no other dot, yet the derived name is "..srt", not ".srt" — the
regex requires at least one non-dot, non-slash character after the dot. -/
theorem downloadSrt_dotname_counterexample :
    downloadSrtFilename "." = "..srt" ∧ downloadSrtFilename "." ≠ ".srt" := by
  decide

/-- Claim C10 (amended): for every suggested filename that begins with a dot
followed by at least one character, none of which is a dot or a slash
(e.g. ".gitignore"), the whole name is treated as the extension and the
derived output filename is exactly ".srt" with an empty stem. -/
theorem downloadSrt_dotname_extension :
    ∀ ext : List Char, ext ≠ [] → '.' ∉ ext → '/' ∉ ext →
      downloadSrtFilename (String.mk ('.' :: ext)) = ".srt" := by
  intro ext hne hdot hsl
  simp only [downloadSrtFilename]
  rw [show (String.mk ('.' :: ext)).toList = [] ++ '.' :: ext from rfl,
    stripExt_strip [] ext hne hdot hsl]
  decide

/-- Witness for C10 at the concrete input ".gitignore". -/
theorem downloadSrt_dotname_extension_witness :
    downloadSrtFilename (String.mk ('.' :: "gitignore".toList)) = ".srt" :=
  downloadSrt_dotname_extension "gitignore".toList (by decide) (by decide) (by decide)

/-! ### Claim C2 -/

lemma unitAt_le_three (k : Nat) (hk : k ≤ 3) :
    unitAt k = "Bytes" ∨ unitAt k = "KB" ∨ unitAt k = "MB" ∨ unitAt k = "GB" := by
  interval_cases k <;> decide

/-- Claim C2 (amended): for every byte count b with 1 ≤ b < 1024^4,
`formatFileSize b` is a non-empty string ending in the unit of largest
base-1024 index i (so 1024^i ≤ b < 1024^(i+1)) among {Bytes, KB, MB, GB},
and `formatFileSize 0 = "0 Bytes"`.  (For b ≥ 1024^4 the unit index
overflows the unit table; see the counterexample.) -/
theorem formatFileSize_spec :
    (∀ b : Nat, 1 ≤ b → b < 1024 ^ 4 →
      formatFileSize b ≠ "" ∧
      ∃ i, i ≤ 3 ∧ 1024 ^ i ≤ b ∧ b < 1024 ^ (i + 1) ∧
        (∃ p : String, formatFileSize b = p ++ " " ++ unitAt i) ∧
        (unitAt i = "Bytes" ∨ unitAt i = "KB" ∨ unitAt i = "MB" ∨ unitAt i = "GB")) ∧
    formatFileSize 0 = "0 Bytes" := by
  refine ⟨?_, by decide⟩
  intro b hb1 hb4
  have hb0 : b ≠ 0 := by omega
  have heq : formatFileSize b =
      renderHundredths (jsToFixed2 b (1024 ^ Nat.log 1024 b)) ++ " " ++
        unitAt (Nat.log 1024 b) := by
    simp [formatFileSize, hb0]
  have hle : 1024 ^ Nat.log 1024 b ≤ b := Nat.pow_log_le_self 1024 hb0
  have hlt : b < 1024 ^ (Nat.log 1024 b + 1) :=
    Nat.lt_pow_succ_log_self (by norm_num) b
  have hlog : Nat.log 1024 b < 4 := Nat.log_lt_of_lt_pow hb0 hb4
  have hne : formatFileSize b ≠ "" := by
    rw [heq]
    intro h
    have hd := congrArg String.data h
    rw [data_append, data_append] at hd
    simp [show (" " : String).data = [' '] from rfl,
      show ("" : String).data = [] from rfl] at hd
  exact ⟨hne, Nat.log 1024 b, by omega, hle, hlt, ⟨_, heq⟩,
    unitAt_le_three _ (by omega)⟩

/-- Witness for C2 at the concrete byte count 5. -/
theorem formatFileSize_spec_witness :
    formatFileSize 5 ≠ "" ∧
    ∃ i, i ≤ 3 ∧ 1024 ^ i ≤ 5 ∧ 5 < 1024 ^ (i + 1) ∧
      (∃ p : String, formatFileSize 5 = p ++ " " ++ unitAt i) ∧
      (unitAt i = "Bytes" ∨ unitAt i = "KB" ∨ unitAt i = "MB" ∨ unitAt i = "GB") :=
  formatFileSize_spec.1 5 (by norm_num) (by norm_num)

/-- Counterexample for C2: at b = 1024^4 (1 TB) the computed unit index is 4,
`sizes[4]` is undefined, and the returned string is "1 undefined", which
does not end in any of Bytes/KB/MB/GB. -/
theorem formatFileSize_unit_overflow :
    formatFileSize 1099511627776 = "1 undefined" ∧
    "Bytes".toList.isSuffixOf "1 undefined".toList = false ∧
    "KB".toList.isSuffixOf "1 undefined".toList = false ∧
    "MB".toList.isSuffixOf "1 undefined".toList = false ∧
    "GB".toList.isSuffixOf "1 undefined".toList = false := by
  have hlog : Nat.log 1024 1099511627776 = 4 := by
    rw [show (1099511627776 : Nat) = 1024 ^ 4 by norm_num,
      Nat.log_pow (by norm_num)]
  refine ⟨?_, by decide, by decide, by decide, by decide⟩
  simp only [formatFileSize, hlog]
  decide

/-! ### Claim C8 -/

/-- Claim C8: when no credential is available (`process.env.API_KEY` absent
or empty, both falsy), `generateSrtFromVideo` fails with the configuration
error, and no outbound request is issued. -/
theorem generateSrt_config_checked_first :
    ∀ (key : Option String) (svc : ServiceResult) (v mt t : String),
      key = none ∨ key = some "" →
      (generateSrtFromVideo key svc v mt t).1 = Except.error configErrorMsg ∧
      (generateSrtFromVideo key svc v mt t).2 = [] := by
  intro key svc v mt t hk
  unfold generateSrtFromVideo
  rw [if_pos hk]
  exact ⟨rfl, rfl⟩

/-- Witness for C8 with an absent key. -/
theorem generateSrt_config_checked_first_witness :
    (generateSrtFromVideo none (ServiceResult.ok (some "1\nhi")) "AAAA" "video/mp4" "hi").1
        = Except.error configErrorMsg ∧
    (generateSrtFromVideo none (ServiceResult.ok (some "1\nhi")) "AAAA" "video/mp4" "hi").2
        = [] :=
  generateSrt_config_checked_first none (ServiceResult.ok (some "1\nhi"))
    "AAAA" "video/mp4" "hi" (Or.inl rfl)

/-! ### Claim C6 -/

/-- Claim C6: when the alignment failure message contains "400" and the
selected file exceeds 20 MB, the stored message is the failure message
with the size-hint suffix appended and the step becomes ERROR; failures
not meeting both conditions store the message without the hint.  The
second conjunct shows every failure produced by `generateSrtFromVideo`
carries a non-empty message, so the `err.message || default` fallback of
`handleGenerate` never replaces it. -/
theorem generateFailure_size_hint :
    (∀ (s : ProcessingState) (f : FileDesc) (msg : String),
      s.videoFile = some f → msg ≠ "" →
      ((20 * 1024 * 1024 < f.size ∧ strContains msg "400" = true →
          handleGenerateResolve s (Except.error msg) =
            { s with step := AppStep.ERROR, error := some (msg ++ sizeHint) }) ∧
        (¬ (20 * 1024 * 1024 < f.size ∧ strContains msg "400" = true) →
          handleGenerateResolve s (Except.error msg) =
            { s with step := AppStep.ERROR, error := some msg }))) ∧
    (∀ (key : Option String) (svc : ServiceResult) (v mt t m : String),
      (generateSrtFromVideo key svc v mt t).1 = Except.error m → m ≠ "") := by
  constructor
  · intro s f msg hf hmsg
    constructor
    · intro hcond
      simp only [handleGenerateResolve, hf, if_neg hmsg, if_pos hcond]
    · intro hcond
      simp only [handleGenerateResolve, hf, if_neg hmsg, if_neg hcond]
  · intro key svc v mt t m h
    unfold generateSrtFromVideo at h
    by_cases hk : key = none ∨ key = some ""
    · rw [if_pos hk] at h
      simp only [Prod.fst] at h
      cases h
      decide
    · rw [if_neg hk] at h
      cases svc with
      | ok txt =>
          cases txt with
          | none =>
              simp only [Prod.fst] at h
              cases h
              decide
          | some t0 =>
              by_cases ht : t0 = ""
              · simp only [ht, if_pos rfl, Prod.fst] at h
                cases h
                decide
              · simp only [if_neg ht, Prod.fst] at h
                cases h
      | fail msg =>
          by_cases hm : msg = ""
          · simp only [hm, if_pos rfl, Prod.fst] at h
            cases h
            decide
          · simp only [if_neg hm, Prod.fst] at h
            cases h
            exact hm

/-- Witness for C6: the spec's 25 MB / "400" scenario. -/
theorem generateFailure_size_hint_witness :
    handleGenerateResolve
        { initialState with
            videoFile := some ⟨"clip.mp4", 25 * 1024 * 1024, "video/mp4"⟩,
            videoBase64 := some "AAAA", transcript := "Hello world",
            step := AppStep.PROCESSING }
        (Except.error "Request failed with status 400") =
      { initialState with
          videoFile := some ⟨"clip.mp4", 25 * 1024 * 1024, "video/mp4"⟩,
          videoBase64 := some "AAAA", transcript := "Hello world",
          step := AppStep.ERROR,
          error := some ("Request failed with status 400" ++ sizeHint) } :=
  (generateFailure_size_hint.1 _ ⟨"clip.mp4", 25 * 1024 * 1024, "video/mp4"⟩
      "Request failed with status 400" rfl (by decide)).1
    ⟨by norm_num, by decide⟩

/-! ### Claim C7 -/

/-- Claim C7: from the ERROR state reached by a failed generate attempt,
the retry trigger changes exactly the two fields `step` (to TRANSCRIPT)
and `error` (to none); the video handle, encoded video, transcript and
result text keep the values they had before the failed attempt. -/
theorem retry_restores_transcript_frame :
    ∀ (s : ProcessingState) (msg : String),
      s.videoBase64 ≠ none → s.videoBase64 ≠ some "" → s.videoFile ≠ none →
      jsTrim s.transcript ≠ "" →
      (handleGenerateResolve (handleGenerateStart s).1 (Except.error msg)).step
          = AppStep.ERROR ∧
      handleRetry (handleGenerateResolve (handleGenerateStart s).1 (Except.error msg)) =
        { s with step := AppStep.TRANSCRIPT, error := none } := by
  intro s msg h1 h2 h3 h4
  have hguard : ¬ (s.videoBase64 = none ∨ s.videoBase64 = some "" ∨
      s.videoFile = none ∨ jsTrim s.transcript = "") := by
    push_neg
    exact ⟨h1, h2, h3, h4⟩
  refine ⟨?_, ?_⟩ <;>
    · simp only [handleGenerateStart, if_neg hguard]
      rfl

/-- Witness for C7 at a concrete pre-failure state. -/
theorem retry_restores_transcript_frame_witness :
    (handleGenerateResolve
        (handleGenerateStart
          { initialState with
              videoFile := some ⟨"clip.mp4", 1000, "video/mp4"⟩,
              videoBase64 := some "AAAA", transcript := "Hello world",
              step := AppStep.TRANSCRIPT }).1
        (Except.error "boom")).step = AppStep.ERROR ∧
    handleRetry (handleGenerateResolve
        (handleGenerateStart
          { initialState with
              videoFile := some ⟨"clip.mp4", 1000, "video/mp4"⟩,
              videoBase64 := some "AAAA", transcript := "Hello world",
              step := AppStep.TRANSCRIPT }).1
        (Except.error "boom")) =
      { initialState with
          videoFile := some ⟨"clip.mp4", 1000, "video/mp4"⟩,
          videoBase64 := some "AAAA", transcript := "Hello world",
          step := AppStep.TRANSCRIPT, error := none } :=
  retry_restores_transcript_frame
    { initialState with
        videoFile := some ⟨"clip.mp4", 1000, "video/mp4"⟩,
        videoBase64 := some "AAAA", transcript := "Hello world",
        step := AppStep.TRANSCRIPT }
    "boom" (by decide) (by decide) (by decide) (by decide)

/-! ### Claim C5 -/

/-- Counterexample for C5: starting from the initial state, a file that
passes the guard but fails to encode leaves `videoFile` set to the failed
attempt's file — the handle IS retained, contradicting "no other session
field changes". -/
theorem encodeFailure_retains_handle :
    (handleFileSelect initialState ⟨"a.mp4", 5, "video/mp4"⟩ none).1.videoFile =
      some ⟨"a.mp4", 5, "video/mp4"⟩ ∧
    initialState.videoFile = none := by
  decide

/-- Claim C5 (amended): when a file passes the UPLOAD guard but encoding
fails, `step` stays unchanged (UPLOAD), `errorMessage` is set, and the
encoded video, transcript and result text are unchanged — but `videoFile`
is set to the attempted file before encoding starts and is retained on
failure, in both entry points. -/
theorem encodeFailure_state :
    ∀ (s : ProcessingState) (f : FileDesc),
      ¬ MAX_FILE_SIZE_BYTES < f.size → strStartsWith f.type "video/" = true →
      handleFileSelect s f none =
        ({ s with
            videoFile := some f,
            error := some "Failed to process video file." }, true) ∧
      handleDrop s f none =
        ({ s with
            videoFile := some f,
            error := some "Failed to process video file." }, true) := by
  intro s f hsize htype
  constructor
  · unfold handleFileSelect
    rw [if_neg hsize, if_neg (not_not_intro htype)]
  · unfold handleDrop
    rw [if_neg hsize, if_neg (not_not_intro htype)]

/-- Witness for C5 at a concrete small video file. -/
theorem encodeFailure_state_witness :
    handleFileSelect initialState ⟨"a.mp4", 5, "video/mp4"⟩ none =
      ({ initialState with
          videoFile := some ⟨"a.mp4", 5, "video/mp4"⟩,
          error := some "Failed to process video file." }, true) ∧
    handleDrop initialState ⟨"a.mp4", 5, "video/mp4"⟩ none =
      ({ initialState with
          videoFile := some ⟨"a.mp4", 5, "video/mp4"⟩,
          error := some "Failed to process video file." }, true) :=
  encodeFailure_state initialState ⟨"a.mp4", 5, "video/mp4"⟩ (by decide) (by decide)

/-! ### Claim C1 -/

/-- Claim C1: a file whose declared size exceeds 200 MB or whose declared
MIME type does not begin with "video/" is rejected on the UPLOAD step by
both entry points: the step stays UPLOAD, only the error message changes
(handle, encoded video, transcript and result are untouched) and encoding
is never started. -/
theorem upload_guard_rejects :
    ∀ (s : ProcessingState) (f : FileDesc) (enc : Option String),
      s.step = AppStep.UPLOAD →
      (MAX_FILE_SIZE_BYTES < f.size ∨ strStartsWith f.type "video/" = false) →
      ((handleFileSelect s f enc).1.step = AppStep.UPLOAD ∧
        (handleFileSelect s f enc).1.videoFile = s.videoFile ∧
        (handleFileSelect s f enc).1.videoBase64 = s.videoBase64 ∧
        (handleFileSelect s f enc).1.transcript = s.transcript ∧
        (handleFileSelect s f enc).1.generatedSrt = s.generatedSrt ∧
        (handleFileSelect s f enc).1.error.isSome = true ∧
        (handleFileSelect s f enc).2 = false) ∧
      ((handleDrop s f enc).1.step = AppStep.UPLOAD ∧
        (handleDrop s f enc).1.videoFile = s.videoFile ∧
        (handleDrop s f enc).1.videoBase64 = s.videoBase64 ∧
        (handleDrop s f enc).1.transcript = s.transcript ∧
        (handleDrop s f enc).1.generatedSrt = s.generatedSrt ∧
        (handleDrop s f enc).1.error.isSome = true ∧
        (handleDrop s f enc).2 = false) := by
  intro s f enc hstep hguard
  by_cases hsize : MAX_FILE_SIZE_BYTES < f.size
  · constructor
    · simp [handleFileSelect, if_pos hsize, hstep]
    · simp [handleDrop, if_pos hsize, hstep]
  · have htype : strStartsWith f.type "video/" = false := by
      rcases hguard with h | h
      · exact absurd h hsize
      · exact h
    constructor
    · simp [handleFileSelect, if_neg hsize, htype, hstep]
    · simp [handleDrop, if_neg hsize, htype, hstep]

/-- Witness for C1: an oversized video file at the initial state. -/
theorem upload_guard_rejects_witness :
    ((handleFileSelect initialState ⟨"big.mp4", 209715201, "video/mp4"⟩ none).1.step
        = AppStep.UPLOAD ∧
      (handleFileSelect initialState ⟨"big.mp4", 209715201, "video/mp4"⟩ none).1.videoFile
        = initialState.videoFile ∧
      (handleFileSelect initialState ⟨"big.mp4", 209715201, "video/mp4"⟩ none).1.videoBase64
        = initialState.videoBase64 ∧
      (handleFileSelect initialState ⟨"big.mp4", 209715201, "video/mp4"⟩ none).1.transcript
        = initialState.transcript ∧
      (handleFileSelect initialState ⟨"big.mp4", 209715201, "video/mp4"⟩ none).1.generatedSrt
        = initialState.generatedSrt ∧
      (handleFileSelect initialState ⟨"big.mp4", 209715201, "video/mp4"⟩ none).1.error.isSome
        = true ∧
      (handleFileSelect initialState ⟨"big.mp4", 209715201, "video/mp4"⟩ none).2 = false) ∧
    ((handleDrop initialState ⟨"big.mp4", 209715201, "video/mp4"⟩ none).1.step
        = AppStep.UPLOAD ∧
      (handleDrop initialState ⟨"big.mp4", 209715201, "video/mp4"⟩ none).1.videoFile
        = initialState.videoFile ∧
      (handleDrop initialState ⟨"big.mp4", 209715201, "video/mp4"⟩ none).1.videoBase64
        = initialState.videoBase64 ∧
      (handleDrop initialState ⟨"big.mp4", 209715201, "video/mp4"⟩ none).1.transcript
        = initialState.transcript ∧
      (handleDrop initialState ⟨"big.mp4", 209715201, "video/mp4"⟩ none).1.generatedSrt
        = initialState.generatedSrt ∧
      (handleDrop initialState ⟨"big.mp4", 209715201, "video/mp4"⟩ none).1.error.isSome
        = true ∧
      (handleDrop initialState ⟨"big.mp4", 209715201, "video/mp4"⟩ none).2 = false) :=
  upload_guard_rejects initialState ⟨"big.mp4", 209715201, "video/mp4"⟩ none
    rfl (Or.inl (by norm_num [MAX_FILE_SIZE_BYTES, MAX_FILE_SIZE_MB]))

/-! ### Claim C3 -/

lemma matchCI_self_append (pat rest : List Char) :
    matchCI pat (pat ++ rest) = some rest := by
  induction pat with
  | nil => rfl
  | cons p ps ih => simp [matchCI, ih]

lemma matchCI_fence_cons (c : Char) (rest : List Char) (hc : c ≠ btick) :
    matchCI fence (c :: rest) = none := by
  have hup : upChar btick = btick := by decide
  simp [fence, matchCI, hup, hc]

lemma matchCI_fenceSrt_bare (rest : List Char) :
    matchCI fenceSrt (fence ++ '\n' :: rest) = none := rfl

lemma isPrefixOf_append_self (a b : List Char) : a.isPrefixOf (a ++ b) = true := by
  simp [List.isPrefixOf_iff_prefix]

lemma stripTrail_append_fence (I : List Char) : stripTrailFence (I ++ fence) = I := by
  unfold stripTrailFence
  rw [List.reverse_append, show fence.reverse = fence from rfl,
    if_pos (isPrefixOf_append_self fence I.reverse),
    show (3 : Nat) = fence.length from rfl, List.drop_left, List.reverse_reverse]

lemma mem_of_mem_jsTrim (x : Char) (l : List Char) (hx : x ∈ jsTrimList l) :
    x ∈ l := by
  unfold jsTrimList at hx
  rw [List.mem_reverse] at hx
  have h1 := List.dropWhile_subset (l := (l.dropWhile isJsSpace).reverse) isJsSpace hx
  rw [List.mem_reverse] at h1
  exact List.dropWhile_subset isJsSpace h1

/-- Counterexample for C3: a response fenced with the language hint "vtt"
keeps the hint text: the post-processing only strips the "srt" hint (or a
bare fence), so "vtt" leaks into the returned subtitle result. -/
theorem clean_leaks_other_hint :
    cleanResponse "```vtt\nX\n```" = "vtt\nX" ∧
    strContains (cleanResponse "```vtt\nX\n```") "vtt" = true ∧
    cleanResponse "```vtt\nX\n```" ≠ "X" := by
  decide

/-- Claim C3 (amended): the post-processing strips a leading code-fence
marker tagged "srt" (case-insensitively) or untagged, strips a trailing
fence marker standing at the very end of the response, and trims
surrounding whitespace, so that for such responses no fence or hint text
leaks into the result; language hints other than "srt" are not stripped. -/
theorem clean_strips_fences :
    ∀ (c : Char) (I : List Char), isJsSpace c = false → c ≠ btick → btick ∉ I →
      cleanList (fenceSrt ++ '\n' :: (c :: I) ++ fence) = jsTrimList (c :: I) ∧
      cleanList (fence ++ '\n' :: (c :: I) ++ fence) = jsTrimList (c :: I) ∧
      btick ∉ jsTrimList (c :: I) ∧
      cleanResponse "```SRT\nX\n```" = "X" := by
  intro c I hc hcb hI
  have hdrop : List.dropWhile isJsSpace ('\n' :: ((c :: I) ++ fence)) =
      c :: (I ++ fence) := by
    simp [List.dropWhile_cons, show isJsSpace '\n' = true from rfl, hc]
  have hlead1 : replaceLead fenceSrt (fenceSrt ++ '\n' :: (c :: I) ++ fence) =
      c :: (I ++ fence) := by
    simp only [replaceLead, matchCI_self_append]
    exact hdrop
  have hlead2 : replaceLead fence (c :: (I ++ fence)) = c :: (I ++ fence) := by
    simp only [replaceLead, matchCI_fence_cons c (I ++ fence) hcb]
  have hm : matchCI fenceSrt (fence ++ '\n' :: (c :: I) ++ fence) = none :=
    matchCI_fenceSrt_bare ((c :: I) ++ fence)
  have hlead3 : replaceLead fenceSrt (fence ++ '\n' :: (c :: I) ++ fence) =
      fence ++ '\n' :: (c :: I) ++ fence := by
    simp only [replaceLead, hm]
  have hlead4 : replaceLead fence (fence ++ '\n' :: (c :: I) ++ fence) =
      c :: (I ++ fence) := by
    simp only [replaceLead, matchCI_self_append]
    exact hdrop
  have htrail : stripTrailFence (c :: (I ++ fence)) = c :: I := by
    rw [show c :: (I ++ fence) = (c :: I) ++ fence from rfl,
      stripTrail_append_fence]
  refine ⟨?_, ?_, ?_, by decide⟩
  · rw [cleanList, hlead1, hlead2, htrail]
  · rw [cleanList, hlead3, hlead4, htrail]
  · intro hmem
    rcases List.mem_cons.mp (mem_of_mem_jsTrim _ _ hmem) with h | h
    · exact hcb h.symm
    · exact hI h

/-- Witness for C3 at the specification's own test vector
"```srt\n1\n00:00:00,000 --> 00:00:01,000\nhi\n```". -/
theorem clean_strips_fences_witness :
    cleanList (fenceSrt ++ '\n' :: ('1' :: "\n00:00:00,000 --> 00:00:01,000\nhi".toList) ++ fence)
        = jsTrimList ('1' :: "\n00:00:00,000 --> 00:00:01,000\nhi".toList) ∧
    cleanList (fence ++ '\n' :: ('1' :: "\n00:00:00,000 --> 00:00:01,000\nhi".toList) ++ fence)
        = jsTrimList ('1' :: "\n00:00:00,000 --> 00:00:01,000\nhi".toList) ∧
    btick ∉ jsTrimList ('1' :: "\n00:00:00,000 --> 00:00:01,000\nhi".toList) ∧
    cleanResponse "```SRT\nX\n```" = "X" :=
  clean_strips_fences '1' "\n00:00:00,000 --> 00:00:01,000\nhi".toList
    (by decide) (by decide) (by decide)

/-! ### Claim C4 -/

lemma handleFileSelect_step_or (s : ProcessingState) (f : FileDesc)
    (enc : Option String) :
    (handleFileSelect s f enc).1.step = s.step ∨
    (handleFileSelect s f enc).1.step = AppStep.TRANSCRIPT := by
  unfold handleFileSelect
  cases enc <;> split_ifs <;> simp

lemma handleDrop_step_or (s : ProcessingState) (f : FileDesc)
    (enc : Option String) :
    (handleDrop s f enc).1.step = s.step ∨
    (handleDrop s f enc).1.step = AppStep.TRANSCRIPT := by
  unfold handleDrop
  cases enc <;> split_ifs <;> simp

lemma handleGenerateStart_or (s : ProcessingState) :
    ((handleGenerateStart s).1.step = s.step ∧ (handleGenerateStart s).2 = false) ∨
    ((handleGenerateStart s).1.step = AppStep.PROCESSING ∧
      (handleGenerateStart s).2 = true) := by
  unfold handleGenerateStart
  split_ifs with h
  · left; exact ⟨rfl, rfl⟩
  · right; exact ⟨rfl, rfl⟩

lemma handleGenerateResolve_step_or (s : ProcessingState)
    (r : Except String String) :
    (handleGenerateResolve s r).step = AppStep.RESULT ∨
    (handleGenerateResolve s r).step = AppStep.ERROR := by
  cases r with
  | ok srt => left; rfl
  | error msg => right; rfl

lemma pendIff_of_ne (t : Sys) (h1 : t.pending = false)
    (h2 : t.st.step ≠ AppStep.PROCESSING) :
    (t.pending = true ↔ t.st.step = AppStep.PROCESSING) :=
  iff_of_false (by simp [h1]) h2

lemma pending_false_of_step_ne (s : Sys)
    (ih : s.pending = true ↔ s.st.step = AppStep.PROCESSING)
    (h : s.st.step ≠ AppStep.PROCESSING) : s.pending = false := by
  cases hp : s.pending
  · rfl
  · exact absurd (ih.mp hp) h

lemma reachable_pending_iff :
    ∀ s : Sys, Reachable s → (s.pending = true ↔ s.st.step = AppStep.PROCESSING) := by
  intro s h
  induction h with
  | init => simp [initialState]
  | step s e hr hen ih =>
      cases e with
      | selectFile f enc =>
          have hst : s.st.step = AppStep.UPLOAD := by simpa [enabledEv] using hen
          have hp : s.pending = false :=
            pending_false_of_step_ne s ih (by rw [hst]; decide)
          refine pendIff_of_ne _ (by simp [stepSys, hp]) ?_
          simp only [stepSys]
          rcases handleFileSelect_step_or s.st f enc with h | h <;> rw [h]
          · rw [hst]; decide
          · decide
      | dropFile f enc =>
          have hst : s.st.step = AppStep.UPLOAD := by simpa [enabledEv] using hen
          have hp : s.pending = false :=
            pending_false_of_step_ne s ih (by rw [hst]; decide)
          refine pendIff_of_ne _ (by simp [stepSys, hp]) ?_
          simp only [stepSys]
          rcases handleDrop_step_or s.st f enc with h | h <;> rw [h]
          · rw [hst]; decide
          · decide
      | editTranscript t =>
          have hst : s.st.step = AppStep.TRANSCRIPT := by simpa [enabledEv] using hen
          have hp : s.pending = false :=
            pending_false_of_step_ne s ih (by rw [hst]; decide)
          refine pendIff_of_ne _ (by simp [stepSys, hp]) ?_
          simp only [stepSys]
          rw [show ({ s.st with transcript := t : ProcessingState }).step = s.st.step
            from rfl, hst]
          decide
      | clickGenerate =>
          have hst : s.st.step = AppStep.TRANSCRIPT := by simpa [enabledEv] using hen
          have hp : s.pending = false :=
            pending_false_of_step_ne s ih (by rw [hst]; decide)
          rcases handleGenerateStart_or s.st with ⟨h1, h2⟩ | ⟨h1, h2⟩
          · refine pendIff_of_ne _ (by simp [stepSys, hp, h2]) ?_
            simp only [stepSys]
            rw [h1, hst]
            decide
          · refine iff_of_true ?_ ?_
            · simp [stepSys, hp, h2]
            · simpa [stepSys] using h1
      | alignSettle r =>
          refine pendIff_of_ne _ (by simp [stepSys]) ?_
          simp only [stepSys]
          rcases handleGenerateResolve_step_or s.st r with h | h <;> rw [h] <;> decide
      | clickReset =>
          have hst : s.st.step = AppStep.TRANSCRIPT ∨ s.st.step = AppStep.RESULT := by
            simpa [enabledEv] using hen
          have hp : s.pending = false := by
            refine pending_false_of_step_ne s ih ?_
            rcases hst with h | h <;> rw [h] <;> decide
          refine pendIff_of_ne _ (by simp [stepSys, hp]) ?_
          simp only [stepSys, handleReset]
          decide
      | clickRetry =>
          have hst : s.st.step = AppStep.ERROR := by simpa [enabledEv] using hen
          have hp : s.pending = false :=
            pending_false_of_step_ne s ih (by rw [hst]; decide)
          refine pendIff_of_ne _ (by simp [stepSys, hp]) ?_
          simp only [stepSys, handleRetry]
          decide
      | clickDownload =>
          have hst : s.st.step = AppStep.RESULT := by simpa [enabledEv] using hen
          have hp : s.pending = false :=
            pending_false_of_step_ne s ih (by rw [hst]; decide)
          refine pendIff_of_ne _ (by simp [stepSys, hp]) ?_
          simp only [stepSys]
          rw [hst]
          decide

/-- Claim C4: in every reachable session state the ghost flag "an alignment
call is unresolved" holds exactly in PROCESSING, and any enabled event that
invokes the alignment client can only do so when no call is unresolved,
entering PROCESSING — so alignment calls are serialized: PROCESSING must be
left (to RESULT or ERROR via settlement) before another call is possible. -/
theorem align_serialized :
    ∀ s : Sys, Reachable s →
      (s.pending = true ↔ s.st.step = AppStep.PROCESSING) ∧
      ∀ e : Ev, enabledEv s e = true → (stepSys s e).2 = true →
        s.pending = false ∧ (stepSys s e).1.st.step = AppStep.PROCESSING := by
  intro s hr
  have ih := reachable_pending_iff s hr
  refine ⟨ih, ?_⟩
  intro e hen hinv
  cases e with
  | selectFile f enc => simp [stepSys] at hinv
  | dropFile f enc => simp [stepSys] at hinv
  | editTranscript t => simp [stepSys] at hinv
  | clickGenerate =>
      have hst : s.st.step = AppStep.TRANSCRIPT := by simpa [enabledEv] using hen
      have hp : s.pending = false :=
        pending_false_of_step_ne s ih (by rw [hst]; decide)
      refine ⟨hp, ?_⟩
      have h2 : (handleGenerateStart s.st).2 = true := by
        simpa [stepSys] using hinv
      rcases handleGenerateStart_or s.st with ⟨h1, hf⟩ | ⟨h1, ht⟩
      · rw [hf] at h2; cases h2
      · simpa [stepSys] using h1
  | alignSettle r => simp [stepSys] at hinv
  | clickReset => simp [stepSys] at hinv
  | clickRetry => simp [stepSys] at hinv
  | clickDownload => simp [stepSys] at hinv

/-- A concrete selected file for the C4 witness trace. -/
def demoFile : FileDesc := ⟨"demo.mp4", 1000, "video/mp4"⟩

/-- State after selecting `demoFile` (encoding succeeds) at app start. -/
def demoSys1 : Sys :=
  (stepSys ⟨initialState, false⟩ (Ev.selectFile demoFile (some "AAAA"))).1

/-- State after typing a transcript in `demoSys1`. -/
def demoSys2 : Sys := (stepSys demoSys1 (Ev.editTranscript "Hello world")).1

/-- Witness for C4 along the concrete trace
init → select file → edit transcript → generate. -/
theorem align_serialized_witness :
    demoSys2.pending = false ∧
    (stepSys demoSys2 Ev.clickGenerate).1.st.step = AppStep.PROCESSING :=
  (align_serialized demoSys2
      (Reachable.step demoSys1 (Ev.editTranscript "Hello world")
        (Reachable.step ⟨initialState, false⟩ (Ev.selectFile demoFile (some "AAAA"))
          Reachable.init (by decide))
        (by decide))).2
    Ev.clickGenerate (by decide) (by decide)

end AutoSub
